import Mathlib

/-!
Shallow embedding of the commit-job orchestration and HA-convergence logic of
the eve-ng_automation_PA repository (files src/pa_deployment_ha.py and
src/pa_deployment_config.py).

The network is abstracted as response oracles: each definition takes, for every
HTTP request the Python code issues, a value describing what the code observes
about the response (a raised exception, a non-200 status code, or the parsed
fields the code actually reads).  Control flow, mutation of the bookkeeping
structures (the job-id dictionary, the ready-device dictionary, the api-key
list, the active-firewall list) and the per-call time.sleep amounts are
translated statement by statement from the Python source.
-/

namespace PA

/-- Device credential record, mirroring one entry of pa_credentials
(a dict with host / username / password keys). -/
structure Device where
  host : String
  username : String
  password : String
deriving DecidableEq, Repr

/-! ### API-key generation (pa_deployment_ha.py, PaloAltoFirewall_HA.get_api_key, lines 69-111) -/

/-- What PaloAltoFirewall_HA.get_api_key observes for one keygen request:
the requests.get call raised a RequestException, or returned a non-200 status
code, or returned 200 with a key extracted from the XML body. -/
inductive KeygenResp where
  | raised
  | httpErr (code : Nat)
  | ok200 (key : String)
deriving DecidableEq, Repr

/-- Truth of a keygen response appending a header (the status_code == 200
branch of get_api_key). -/
def KeygenResp.isOk : KeygenResp → Bool
  | .ok200 _ => true
  | _ => false

/-- Key carried by a successful keygen response (the X-PAN-KEY header value). -/
def KeygenResp.keyOf : KeygenResp → Option String
  | .ok200 k => some k
  | _ => none

/-- Embedding of get_api_key: iterate over pa_credentials (device index i
numbering the requests); on a 200 response append the xml_headers entry
(modelled by its X-PAN-KEY value) to api_keys_list; on a non-200 response or a
caught RequestException append nothing and continue with the next device. -/
def get_api_key : List Device → (Nat → KeygenResp) → Nat → List String
  | [], _, _ => []
  | _ :: ds, net, i =>
    match net i with
    | .ok200 key => key :: get_api_key ds net (i + 1)
    | _ => get_api_key ds net (i + 1)

/-- Original indices (into pa_credentials, starting at i) of the devices whose
keygen request succeeded, in order: position j of api_keys_list holds the key
generated for the device at original index (successIdx devices net i).get j. -/
def successIdx : List Device → (Nat → KeygenResp) → Nat → List Nat
  | [], _, _ => []
  | _ :: ds, net, i =>
    match net i with
    | .ok200 _ => i :: successIdx ds net (i + 1)
    | _ => successIdx ds net (i + 1)

/-! ### Active-firewall discovery (pa_deployment_config.py, get_active_fw, lines 94-128) -/

/-- What get_active_fw observes for one HA-state request on a device: a raised
RequestException (caught by the except clause around the whole loop), a non-200
status code, a 200 response whose XML lacks a state element (root.find
returns None, so .text raises an uncaught AttributeError), or a 200 response
with the text of the state element. -/
inductive HAStateResp where
  | raised
  | httpErr (code : Nat)
  | noStateElem
  | state (s : String)
deriving DecidableEq, Repr

/-- Outcome of get_active_fw, as seen through the object attributes the later
configuration methods read: the final contents of active_fw_list (paired with
active_fw_headers), plus whether the method escaped with an uncaught
AttributeError (raisedAttr). -/
structure ActiveFwResult where
  active : List Device
  headers : List String
  raisedAttr : Bool
deriving DecidableEq, Repr

/-- Embedding of get_active_fw: walk zip(pa_credentials, api_keys_list) in
order; on state "active" append the device and its headers and break; on any
other state text or a non-200 response continue; on a RequestException the
surrounding except logs and the method returns with the lists as built; on a
200 response without a state element the .text access raises AttributeError,
which no handler catches. -/
def get_active_fw : List (Device × String) → (Nat → HAStateResp) → Nat → ActiveFwResult
  | [], _, _ => ⟨[], [], false⟩
  | (d, hdr) :: rest, net, i =>
    match net i with
    | .state s =>
      if s = "active" then ⟨[d], [hdr], false⟩
      else get_active_fw rest net (i + 1)
    | .httpErr _ => get_active_fw rest net (i + 1)
    | .raised => ⟨[], [], false⟩
    | .noStateElem => ⟨[], [], true⟩

/-! ### Interface configuration on the active firewall (pa_deployment_config.py, act_fw_int_config, lines 130-167) -/

/-- What act_fw_int_config observes for its single configuration request. -/
inductive CfgResp where
  | raised
  | httpErr (code : Nat)
  | ok200
deriving DecidableEq, Repr

/-- How one run of act_fw_int_config ended. -/
inductive IntCfgOutcome where
  | configured
  | httpFailed (code : Nat)
  | caughtError
deriving DecidableEq, Repr

/-- Result of act_fw_int_config: how many configuration requests were issued
and how the method returned. -/
structure IntCfgResult where
  requestsIssued : Nat
  outcome : IntCfgOutcome
deriving DecidableEq, Repr

/-- Embedding of act_fw_int_config: reading active_fw_list[0] (then
active_fw_headers[0]) raises IndexError when the list is empty, which the
except Exception clause catches and logs, returning without issuing any
request; otherwise one request is issued and either branch of the status-code
test returns normally (a raised exception is likewise caught). -/
def act_fw_int_config (active : List Device) (headers : List String)
    (net : CfgResp) : IntCfgResult :=
  match active, headers with
  | [], _ => ⟨0, .caughtError⟩
  | _ :: _, [] => ⟨0, .caughtError⟩
  | _ :: _, _ :: _ =>
    match net with
    | .raised => ⟨1, .caughtError⟩
    | .httpErr c => ⟨1, .httpFailed c⟩
    | .ok200 => ⟨1, .configured⟩

/-! ### Route configuration on the active firewall (pa_deployment_config.py, act_fw_route_config, lines 200-250) -/

/-- How one run of act_fw_route_config ended.  Unlike act_fw_int_config, its
except handler logs with an f-string that itself reads
self.active_fw_list[0] (line 250), so when the list is empty the handler
raises a fresh IndexError that escapes the method (raisedIndexError) instead
of logging and returning. -/
inductive RouteCfgOutcome where
  | configured
  | httpFailed (code : Nat)
  | caughtError
  | raisedIndexError
deriving DecidableEq, Repr

/-- Result of act_fw_route_config: how many configuration requests were
issued and how the method ended. -/
structure RouteCfgResult where
  requestsIssued : Nat
  outcome : RouteCfgOutcome
deriving DecidableEq, Repr

/-- Embedding of act_fw_route_config.  Inside the try: building
route_config_url reads active_fw_list[0] (line 215) and route_params reads
active_fw_headers[0] (line 221) - an empty list raises IndexError before any
request; then the route-settings request (net1) is issued, both status-code
branches only log, and the default-route request (net2) follows, updating the
progress bar on 200.  A raised exception lands in the except handler, which
logs an f-string reading active_fw_list[0] again: with a non-empty list it
logs and the method returns; with an empty list that read raises IndexError
out of the method. -/
def act_fw_route_config (active : List Device) (headers : List String)
    (net1 net2 : CfgResp) : RouteCfgResult :=
  match active, headers with
  | [], _ => ⟨0, .raisedIndexError⟩
  | _ :: _, [] => ⟨0, .caughtError⟩
  | _ :: _, _ :: _ =>
    match net1 with
    | .raised => ⟨1, .caughtError⟩
    | _ =>
      match net2 with
      | .raised => ⟨2, .caughtError⟩
      | .httpErr c => ⟨2, .httpFailed c⟩
      | .ok200 => ⟨2, .configured⟩

/-! ### HA sync waiting loop (pa_deployment_config.py, wait_for_sync_completion, lines 438-476) -/

/-- What one poll inside wait_for_sync_completion observes: a raised
transport/parse exception (caught by the except around the whole for loop,
which logs and returns), a non-200 status code, or a 200 response whose
group/running-sync text is the given optional string (findtext yields None
when the element is absent). -/
inductive SyncResp where
  | raised
  | httpErr (code : Nat)
  | state (s : Option String)
deriving DecidableEq, Repr

/-- How the wait loop of wait_for_sync_completion ended: it broke out after a
poll returned "synchronized"; it ran all 8 iterations without ever observing
"synchronized" and fell off the loop (the implicit timed-out ending - the
method returns nothing either way); or an exception was caught mid-loop and
the method returned early. -/
inductive WaitExit where
  | synced
  | exhausted
  | aborted
deriving DecidableEq, Repr

/-- Result of wait_for_sync_completion: number of poll requests initiated,
total time slept (each loop iteration starts with time.sleep(15)), and how the
loop ended. -/
structure WaitResult where
  polls : Nat
  slept : Nat
  exit : WaitExit
deriving DecidableEq, Repr

/-- One-step unfolding of the for check in range(max_checks) body, with
remaining iterations and the count of polls already made.  Each iteration
sleeps 15, issues the status request, and breaks only when the parsed
running-sync text equals "synchronized"; every other 200 text (including a
missing element) and every non-200 response just continues; a raised
exception aborts the whole loop via the enclosing except. -/
def waitFrom (net : Nat → SyncResp) : Nat → Nat → Nat → WaitResult
  | 0, made, slept => ⟨made, slept, .exhausted⟩
  | r + 1, made, slept =>
    match net made with
    | .raised => ⟨made + 1, slept + 15, .aborted⟩
    | .httpErr _ => waitFrom net r (made + 1) (slept + 15)
    | .state s =>
      if s = some "synchronized" then ⟨made + 1, slept + 15, .synced⟩
      else waitFrom net r (made + 1) (slept + 15)

/-- Embedding of wait_for_sync_completion: max_checks = 8 polls at 15-unit
spacing. -/
def wait_for_sync_completion (net : Nat → SyncResp) : WaitResult :=
  waitFrom net 8 0 0

/-! ### HA sync entry point (pa_deployment_config.py, force_sync_config, lines 392-437) -/

/-- What the sync-to-remote trigger request inside force_sync_config
observes. -/
inductive TrigResp where
  | raised
  | httpErr (code : Nat)
  | ok200
deriving DecidableEq, Repr

/-- How force_sync_config ended. -/
inductive SyncOutcome where
  | alreadySynced
  | waited (w : WaitResult)
  | triggeredWaited (w : WaitResult)
  | triggerFailed (code : Nat)
  | noAction
  | checkHttpFailed (code : Nat)
  | exceptCaught
deriving DecidableEq, Repr

/-- Result of force_sync_config: whether the sync-to-remote request was
issued, how many wait-loop polls were made, and which branch returned. -/
structure ForceSyncResult where
  triggered : Bool
  waitPolls : Nat
  outcome : SyncOutcome
deriving DecidableEq, Repr

/-- Embedding of force_sync_config: query high-availability state; on 200 with
running-sync "synchronized" log and fall through (no trigger, no wait loop);
on "synchronization in progress" call wait_for_sync_completion; on
"not synchronized" issue the sync-to-remote request and, if it returns 200,
call wait_for_sync_completion, else log the failure; any other text falls
through; a non-200 check response logs; a raised exception anywhere is caught
by the enclosing except. -/
def force_sync_config (check : SyncResp) (trig : TrigResp)
    (waitNet : Nat → SyncResp) : ForceSyncResult :=
  match check with
  | .raised => ⟨false, 0, .exceptCaught⟩
  | .httpErr c => ⟨false, 0, .checkHttpFailed c⟩
  | .state s =>
    if s = some "synchronized" then ⟨false, 0, .alreadySynced⟩
    else if s = some "synchronization in progress" then
      let w := wait_for_sync_completion waitNet
      ⟨false, w.polls, .waited w⟩
    else if s = some "not synchronized" then
      match trig with
      | .raised => ⟨true, 0, .exceptCaught⟩
      | .httpErr c => ⟨true, 0, .triggerFailed c⟩
      | .ok200 =>
        let w := wait_for_sync_completion waitNet
        ⟨true, w.polls, .triggeredWaited w⟩
    else ⟨false, 0, .noAction⟩

/-! ### Commit on the active firewall (pa_deployment_config.py, commit_changes, lines 310-356) -/

/-- What the initial commit request of PaloAltoFirewall_config.commit_changes
observes: a raised exception (requests.get raising, or ET.fromstring failing
to parse - both land in the same except clause), a non-200 status code, a 200
response whose XML has no result element, or one with a result element whose
job text is the given optional string (findtext yields None when absent). -/
inductive CommitStartResp where
  | raised
  | httpErr (code : Nat)
  | noResultElem
  | resultElem (jobid : Option String)
deriving DecidableEq, Repr

/-- Python truthiness of the jobid local (None and the empty string are
falsy). -/
def jobTruthy : Option String → Bool
  | none => false
  | some s => !s.isEmpty

/-- How the start phase of PaloAltoFirewall_config.commit_changes (everything
up to and including the if not jobid test at line 351) ends. -/
inductive CommitStartOutcome where
  | returnedNoJob
  | unboundLocal
  | proceedToMonitor (jobid : String)
deriving DecidableEq, Repr

/-- Embedding of the start phase of PaloAltoFirewall_config.commit_changes.
On a 200 response with a result element, the local jobid is bound; a truthy
jobid logs and execution continues past the try to the if not jobid test, a
falsy one returns.  A missing result element or non-200 status returns from
inside the try.  A raised exception is caught by the except clause, which only
logs - control then falls to the if not jobid test with the local jobid never
assigned, so referencing it raises UnboundLocalError. -/
def commit_changes_start (resp : CommitStartResp) : CommitStartOutcome :=
  match resp with
  | .raised => .unboundLocal
  | .httpErr _ => .returnedNoJob
  | .noResultElem => .returnedNoJob
  | .resultElem j =>
    if jobTruthy j then .proceedToMonitor (j.getD "")
    else .returnedNoJob

/-! ### Commit orchestration across devices (pa_deployment_ha.py, PaloAltoFirewall_HA.commit_changes, lines 233-341) -/

/-- Value stored under one key of jobid_dict (the device dict, its host, and
the optional job id returned by findtext; the headers entry is determined by
the device and omitted). -/
structure RegEntry where
  device : Device
  host : String
  jobid : Option String
deriving DecidableEq, Repr

/-- The jobid_dict: a Python dict as an insertion-ordered association list
with unique keys. -/
abbrev Registry : Type := List (String × RegEntry)

/-- Python dict assignment d[k] = v: if the key is present, the stored value
is replaced in place (insertion position kept); otherwise the pair is appended
at the end.  No error is ever raised on an existing key. -/
def dictInsert (k : String) (v : RegEntry) : Registry → Registry
  | [] => [(k, v)]
  | (k₀, v₀) :: rest =>
    if k = k₀ then (k₀, v) :: rest else (k₀, v₀) :: dictInsert k v rest

/-- Python dict lookup d.get(k). -/
def dictLookup (k : String) : Registry → Option RegEntry
  | [] => none
  | (k₀, v₀) :: rest => if k = k₀ then some v₀ else dictLookup k rest

/-- Unique key built at line 268: f-string host underscore jobid, where a None
jobid prints as the string None. -/
def jobKey (host : String) (jobid : Option String) : String :=
  host ++ "_" ++ (match jobid with | none => "None" | some s => s)

/-- What the commit-start request for one device observes: a raised exception
(caught per device by the try inside the for loop), a non-200 status, a 200
response without a result element, or a 200 response with a result element
whose job text is the given optional string. -/
inductive StartResp where
  | raised
  | httpErr (code : Nat)
  | noResult
  | job (jobid : Option String)
deriving DecidableEq, Repr

/-- Step 1 of PaloAltoFirewall_HA.commit_changes (lines 250-277): iterate over
zip(pa_credentials, api_keys_list); whenever the response carries a result
element, store the job info in jobid_dict under jobKey (a plain dict
assignment - an existing key is silently overwritten); every failure mode is
only logged. -/
def startCommits (net : Nat → StartResp) : List (Device × String) → Nat → Registry → Registry
  | [], _, reg => reg
  | (d, _) :: rest, i, reg =>
    match net i with
    | .job j => startCommits net rest (i + 1) (dictInsert (jobKey d.host j) ⟨d, d.host, j⟩ reg)
    | _ => startCommits net rest (i + 1) reg

/-- What one job-status poll observes: a raised transport/parse exception
(which escapes the for loop and the while loop to the except at line 340), a
non-200 status, a 200 response without a job element, or a 200 response with
a job element carrying the given optional status text and result text
(findtext("status") yields None when absent; findtext("result", "") defaults
to the empty string). -/
inductive PollResp where
  | raised
  | httpErr (code : Nat)
  | noJob
  | jobElem (status : Option String) (result : String)
deriving DecidableEq, Repr

/-- The ready_devices dict keyed by host (its value is always [host], so only
the key set matters): assignment inserts the host at the end if absent and is
a no-op on the key order otherwise. -/
def readyInsert (h : String) (ready : List String) : List String :=
  if h ∈ ready then ready else ready ++ [h]

/-- Mutable state threaded through one polling round: the ready_devices keys,
the accumulated time.sleep total, the keys polled so far this round, and the
completed_jobs list. -/
structure RoundAcc where
  ready : List String
  slept : Nat
  polled : List String
  completed : List String
deriving DecidableEq, Repr

/-- Body of the for unique_key, job_info in jobid_dict.items() loop (lines
287-325), processing entries in insertion order.  A status of ACT sleeps 15
inside the entry; FIN with result OK records the host in ready_devices and
marks the key completed; FIN with any other result only logs and marks the
key completed; a non-200 response or a missing job element or any other
status text leaves the entry untouched; a raised exception aborts the loop,
carried as the error value with the state reached so far. -/
def processEntries (net : Nat → String → PollResp) (round : Nat) :
    List (String × RegEntry) → RoundAcc → Except RoundAcc RoundAcc
  | [], acc => .ok acc
  | (k, e) :: rest, acc =>
    let acc₁ : RoundAcc := { acc with polled := acc.polled ++ [k] }
    match net round k with
    | .raised => .error acc₁
    | .httpErr _ => processEntries net round rest acc₁
    | .noJob => processEntries net round rest acc₁
    | .jobElem status result =>
      if status = some "ACT" then
        processEntries net round rest { acc₁ with slept := acc₁.slept + 15 }
      else if status = some "FIN" then
        if result = "OK" then
          processEntries net round rest
            { acc₁ with ready := readyInsert e.host acc₁.ready,
                        completed := acc₁.completed ++ [k] }
        else
          processEntries net round rest { acc₁ with completed := acc₁.completed ++ [k] }
      else processEntries net round rest acc₁

/-- Deletion loop at lines 328-332: remove the completed keys from jobid_dict,
preserving the order of the remaining entries. -/
def removeKeys (completed : List String) (reg : Registry) : Registry :=
  reg.filter (fun p => !(completed.contains p.1))

/-- State of the monitoring loop between rounds. -/
structure MState where
  registry : Registry
  ready : List String
  slept : Nat
  round : Nat
deriving DecidableEq, Repr

/-- How the while jobid_dict loop (lines 285-338) ended: the dict emptied
(while condition false), the all-commits-completed break at line 336 fired, a
raised exception escaped to the except at line 340 (the polled keys of the
aborted round are recorded), or the given number of rounds elapsed with the
loop still running (the source has no bound of its own). -/
inductive MonitorResult where
  | emptied (st : MState)
  | allReady (st : MState)
  | aborted (st : MState) (polled : List String)
  | fuelOut (st : MState)
deriving DecidableEq, Repr

/-- Embedding of the monitoring loop, unrolled for a given number of rounds.
Each iteration re-checks the while condition, processes every live entry in
insertion order, deletes the completed keys, and breaks when the number of
ready hosts equals len(pa_credentials); an exception leaves jobid_dict and
ready_devices as they were at the moment it was raised (the deletion loop is
skipped). -/
def monitorLoop (credCount : Nat) (net : Nat → String → PollResp) :
    Nat → MState → MonitorResult
  | 0, st => if st.registry = [] then .emptied st else .fuelOut st
  | fuel + 1, st =>
    if st.registry = [] then .emptied st
    else
      match processEntries net st.round st.registry ⟨st.ready, st.slept, [], []⟩ with
      | .error acc => .aborted { st with ready := acc.ready, slept := acc.slept } acc.polled
      | .ok acc =>
        let st' : MState :=
          ⟨removeKeys acc.completed st.registry, acc.ready, acc.slept, st.round + 1⟩
        if acc.ready.length = credCount then .allReady st'
        else monitorLoop credCount net fuel st'

/-- Overall result of PaloAltoFirewall_HA.commit_changes: either the early
return at line 281 because no job was started, or the outcome of the
monitoring loop.  The method itself returns None in every case; this value
records the bookkeeping the method leaves behind. -/
inductive CommitRun where
  | noJobs
  | monitored (r : MonitorResult)
deriving DecidableEq, Repr

/-- Embedding of PaloAltoFirewall_HA.commit_changes: start the commits, bail
out if jobid_dict stayed empty, otherwise run the monitoring loop for the
given number of rounds. -/
def commit_changes (creds : List Device) (keys : List String)
    (startNet : Nat → StartResp) (pollNet : Nat → String → PollResp)
    (fuel : Nat) : CommitRun :=
  if startCommits startNet (creds.zip keys) 0 [] = [] then .noJobs
  else .monitored (monitorLoop creds.length pollNet fuel
    ⟨startCommits startNet (creds.zip keys) 0 [], [], 0, 0⟩)

/-- Hosts recorded in ready_devices at the end of a run - the only per-device
success record commit_changes produces (there is no returned verdict map). -/
def readyOf : CommitRun → List String
  | .noJobs => []
  | .monitored (.emptied st) => st.ready
  | .monitored (.allReady st) => st.ready
  | .monitored (.aborted st _) => st.ready
  | .monitored (.fuelOut st) => st.ready

/-- Total time.sleep amount accumulated during a run. -/
def sleptOf : CommitRun → Nat
  | .noJobs => 0
  | .monitored (.emptied st) => st.slept
  | .monitored (.allReady st) => st.slept
  | .monitored (.aborted st _) => st.slept
  | .monitored (.fuelOut st) => st.slept

/-- Truth of the run having reached one of the ways the Python loop actually
stops (dict emptied, all-ready break, exception): fuelOut means the while loop
is still going after the given number of rounds. -/
def terminated : CommitRun → Bool
  | .noJobs => true
  | .monitored (.emptied _) => true
  | .monitored (.allReady _) => true
  | .monitored (.aborted _ _) => true
  | .monitored (.fuelOut _) => false

/-- Round state carried by either outcome of processEntries (on an abort, the
state reached when the exception was raised). -/
def raccOf : Except RoundAcc RoundAcc → RoundAcc
  | .ok a => a
  | .error a => a

/-- State carried by a MonitorResult, whichever way the loop ended. -/
def mstateOf : MonitorResult → MState
  | .emptied st => st
  | .allReady st => st
  | .aborted st _ => st
  | .fuelOut st => st

/-- Truth of a poll response taking the ACT branch at line 312. -/
def isACT : PollResp → Bool
  | .jobElem s _ => s = some "ACT"
  | _ => false

/-- Number of registry entries whose poll response this round takes the ACT
branch (each such entry contributes one time.sleep(15) inside the round). -/
def countACT (net : Nat → String → PollResp) (round : Nat)
    (entries : List (String × RegEntry)) : Nat :=
  (entries.filter (fun p => isACT (net round p.1))).length

/-- Truth of a sync poll response that neither raises nor reports
"synchronized" (the loop consumes the attempt and keeps going). -/
def completesNotSynced : SyncResp → Bool
  | .raised => false
  | .httpErr _ => true
  | .state s => !(s = some "synchronized")

/-! ### Concrete devices and response oracles used to evaluate the claims -/

/-- Example device A. -/
def exA : Device := ⟨"hA", "uA", "p"⟩

/-- Example device B. -/
def exB : Device := ⟨"hB", "uB", "p"⟩

/-- Example device C. -/
def exC : Device := ⟨"hC", "uC", "p"⟩

/-- Keygen oracle: the request for the first device fails with status 403,
the later ones succeed. -/
def kgFailFirst : Nat → KeygenResp := fun i =>
  if i = 0 then .httpErr 403 else if i = 1 then .ok200 "kB" else .ok200 "kC"

/-- Device with host h and username u1. -/
def exDup1 : Device := ⟨"h", "u1", "p"⟩

/-- Second device with the same host h but username u2. -/
def exDup2 : Device := ⟨"h", "u2", "p"⟩

/-- Commit-start oracle: every device is assigned job id 5. -/
def startSame5 : Nat → StartResp := fun _ => .job (some "5")

/-- Example device with host h1. -/
def ex1 : Device := ⟨"h1", "u", "p"⟩

/-- Example device with host h2. -/
def ex2 : Device := ⟨"h2", "u", "p"⟩

/-- Commit-start oracle: every device is assigned job id 7. -/
def startJob7 : Nat → StartResp := fun _ => .job (some "7")

/-- Poll oracle: every job reports FIN with result FAIL. -/
def pollFinFail : Nat → String → PollResp := fun _ _ => .jobElem (some "FIN") "FAIL"

/-- Poll oracle: every job reports ACT forever. -/
def pollAllAct : Nat → String → PollResp := fun _ _ => .jobElem (some "ACT") ""

/-- Poll oracle: every job reports FIN with result OK. -/
def pollAllFinOk : Nat → String → PollResp := fun _ _ => .jobElem (some "FIN") "OK"

/-- Commit-start oracle: the first device gets job id 1, the second job
id 2. -/
def startJobs12 : Nat → StartResp := fun i =>
  if i = 0 then .job (some "1") else .job (some "2")

/-- Poll oracle: polling the key h1_1 raises; every other key reports FIN with
result OK. -/
def pollRaiseFirst : Nat → String → PollResp := fun _ k =>
  if k = "h1_1" then .raised else .jobElem (some "FIN") "OK"

/-- Poll oracle: every job reports ACT in round 0 and FIN OK afterwards. -/
def pollActRound0 : Nat → String → PollResp := fun r _ =>
  if r = 0 then .jobElem (some "ACT") "" else .jobElem (some "FIN") "OK"

/-- Sync-wait oracle: the third poll raises, every other poll reports
"not synchronized". -/
def waitRaiseThird : Nat → SyncResp := fun i =>
  if i = 2 then .raised else .state (some "not synchronized")

/-- Sync-wait oracle: every poll returns a 200 response without a running-sync
element. -/
def waitStateNone : Nat → SyncResp := fun _ => .state none

/-- HA-state oracle: every device reports the state text passive. -/
def haAllPassive : Nat → HAStateResp := fun _ => .state "passive"

/-! ## Theorems -/

/-- Helper: when every poll in the window completes without raising and never
reports "synchronized", the wait loop runs all remaining iterations and falls
through. -/
lemma waitFrom_exhausted (net : Nat → SyncResp) :
    ∀ (r made slept : Nat),
      (∀ i, made ≤ i → i < made + r → completesNotSynced (net i) = true) →
      waitFrom net r made slept = ⟨made + r, slept + 15 * r, .exhausted⟩ := by
  intro r
  induction r with
  | zero => intro made slept _; simp [waitFrom]
  | succ n ih =>
    intro made slept h
    have h0 : completesNotSynced (net made) = true := h made le_rfl (by omega)
    have step : ∀ i, made + 1 ≤ i → i < made + 1 + n → completesNotSynced (net i) = true := by
      intro i h1 h2
      exact h i (by omega) (by omega)
    cases hr : net made with
    | raised => rw [hr] at h0; simp [completesNotSynced] at h0
    | httpErr c =>
      simp only [waitFrom, hr]
      rw [ih (made + 1) (slept + 15) step]
      congr 1 <;> omega
    | state s =>
      rw [hr] at h0
      have hs : ¬ s = some "synchronized" := by
        simp [completesNotSynced] at h0
        exact h0
      simp only [waitFrom, hr, if_neg hs]
      rw [ih (made + 1) (slept + 15) step]
      congr 1 <;> omega

/-- C6 (amended): for every device whose eight status polls all complete
without raising an exception and never report "synchronized",
wait_for_sync_completion performs exactly 8 poll attempts at 15-unit spacing
and then falls off the loop (the code's implicit timed-out ending - the
method returns no outcome value); a poll that raises instead aborts the wait
early with fewer attempts, as the counterexample shows. -/
theorem C6_bounded_wait (net : Nat → SyncResp)
    (h : ∀ i, i < 8 → completesNotSynced (net i) = true) :
    wait_for_sync_completion net = ⟨8, 120, .exhausted⟩ := by
  have hw := waitFrom_exhausted net 8 0 0 (by intro i _ h2; exact h i (by omega))
  simpa [wait_for_sync_completion] using hw

/-- Witness for C6_bounded_wait at an oracle whose polls always return a 200
response without a running-sync element. -/
theorem C6_bounded_wait_witness :
    (∀ i, i < 8 → completesNotSynced (waitStateNone i) = true) ∧
    wait_for_sync_completion waitStateNone = ⟨8, 120, .exhausted⟩ :=
  ⟨fun _ _ => rfl, C6_bounded_wait waitStateNone (fun _ _ => rfl)⟩

/-- C6 counterexample: with an oracle that never reports "synchronized" but
whose third poll raises, wait_for_sync_completion makes 3 poll attempts, not
8, and ends by the except clause rather than by exhausting the budget -
refuting the claim that every never-synchronized device gets exactly 8
attempts. -/
theorem C6_counterexample :
    wait_for_sync_completion waitRaiseThird = ⟨3, 45, .aborted⟩ ∧
    (∀ i, waitRaiseThird i ≠ .state (some "synchronized")) ∧
    (3 : Nat) ≠ 8 := by
  refine ⟨by decide, ?_, by decide⟩
  intro i
  simp only [waitRaiseThird]
  split <;> decide

/-- C7 (confirmed): when the HA-state check of force_sync_config reports
running-sync "synchronized", the method returns after logging: no
sync-to-remote request is issued and the waiting poll loop is never entered,
whatever the trigger and wait oracles would have answered. -/
theorem C7_already_synced (trig : TrigResp) (waitNet : Nat → SyncResp) :
    force_sync_config (.state (some "synchronized")) trig waitNet =
      ⟨false, 0, .alreadySynced⟩ := rfl

/-- C8 (confirmed): when the initial commit request of
PaloAltoFirewall_config.commit_changes raises, the except clause only logs,
control falls to the if not jobid test with the local never assigned, and the
method raises UnboundLocalError. -/
theorem C8_unbound_local :
    commit_changes_start .raised = .unboundLocal := rfl

/-- Helper: active_fw_list never receives more than one device - the loop
breaks at the first device whose state is active. -/
lemma get_active_fw_len_le :
    ∀ (pairs : List (Device × String)) (net : Nat → HAStateResp) (a : Nat),
      (get_active_fw pairs net a).active.length ≤ 1 := by
  intro pairs
  induction pairs with
  | nil => intro net a; simp [get_active_fw]
  | cons p rest ih =>
    intro net a
    obtain ⟨d, hdr⟩ := p
    cases hr : net a with
    | state s =>
      simp only [get_active_fw, hr]
      split
      · simp
      · exact ih net (a + 1)
    | httpErr c => simpa only [get_active_fw, hr] using ih net (a + 1)
    | raised => simp [get_active_fw, hr]
    | noStateElem => simp [get_active_fw, hr]

/-- Helper: when no queried device reports state active, both active_fw_list
and active_fw_headers end up empty. -/
lemma get_active_fw_no_active :
    ∀ (pairs : List (Device × String)) (net : Nat → HAStateResp) (a : Nat),
      (∀ i, a ≤ i → i < a + pairs.length → net i ≠ .state "active") →
      (get_active_fw pairs net a).active = [] ∧
      (get_active_fw pairs net a).headers = [] := by
  intro pairs
  induction pairs with
  | nil => intro net a _; simp [get_active_fw]
  | cons p rest ih =>
    intro net a h
    obtain ⟨d, hdr⟩ := p
    have hstep : ∀ i, a + 1 ≤ i → i < a + 1 + rest.length → net i ≠ .state "active" := by
      intro i h1 h2
      exact h i (by omega) (by simpa using (by omega : i < a + (rest.length + 1)))
    cases hr : net a with
    | state s =>
      have hs : ¬ s = "active" := by
        intro hcon
        exact (h a le_rfl (by simp)) (by rw [hr, hcon])
      simp only [get_active_fw, hr, if_neg hs]
      exact ih net (a + 1) hstep
    | httpErr c => simpa only [get_active_fw, hr] using ih net (a + 1) hstep
    | raised => simp [get_active_fw, hr]
    | noStateElem => simp [get_active_fw, hr]

/-- C10 (amended): get_active_fw appends at most one device (it breaks at the
first active one) and with no device reporting active the list stays empty;
each subsequent configuration method then hits IndexError on
active_fw_list[0] inside its try, but what happens next depends on the
method's except handler: act_fw_int_config's handler does not touch the list,
so it catches, logs, and returns with no configuration request issued, while
act_fw_route_config's handler reads active_fw_list[0] again in its log
f-string, so a fresh IndexError escapes the method uncaught - the
catch-log-return behavior does not hold for every subsequent method. -/
theorem C10_empty_active_paths (pairs : List (Device × String))
    (net : Nat → HAStateResp) (cfg r1 r2 : CfgResp)
    (h : ∀ i, i < pairs.length → net i ≠ .state "active") :
    (get_active_fw pairs net 0).active = [] ∧
    act_fw_int_config (get_active_fw pairs net 0).active
      (get_active_fw pairs net 0).headers cfg = ⟨0, .caughtError⟩ ∧
    act_fw_route_config (get_active_fw pairs net 0).active
      (get_active_fw pairs net 0).headers r1 r2 = ⟨0, .raisedIndexError⟩ ∧
    (∀ (q : List (Device × String)) (qnet : Nat → HAStateResp) (qa : Nat),
      (get_active_fw q qnet qa).active.length ≤ 1) := by
  have hmain := get_active_fw_no_active pairs net 0 (by intro i _ h2; exact h i (by omega))
  refine ⟨hmain.1, ?_, ?_, fun q qnet qa => get_active_fw_len_le q qnet qa⟩
  · rw [hmain.1, hmain.2]
    rfl
  · rw [hmain.1, hmain.2]
    rfl

/-- Witness for C10_empty_active_paths on two devices that both report state
passive. -/
theorem C10_empty_active_paths_witness :
    (get_active_fw [(exA, "k1"), (exB, "k2")] haAllPassive 0).active = [] ∧
    act_fw_int_config (get_active_fw [(exA, "k1"), (exB, "k2")] haAllPassive 0).active
      (get_active_fw [(exA, "k1"), (exB, "k2")] haAllPassive 0).headers .ok200 =
      ⟨0, .caughtError⟩ ∧
    act_fw_route_config (get_active_fw [(exA, "k1"), (exB, "k2")] haAllPassive 0).active
      (get_active_fw [(exA, "k1"), (exB, "k2")] haAllPassive 0).headers .ok200 .ok200 =
      ⟨0, .raisedIndexError⟩ := by
  have h := C10_empty_active_paths [(exA, "k1"), (exB, "k2")] haAllPassive
    .ok200 .ok200 .ok200 (by intro i _; simp only [haAllPassive]; decide)
  exact ⟨h.1, h.2.1, h.2.2.1⟩

/-- C10 counterexample: run on the empty active_fw_list,
act_fw_route_config issues no request and ends with an IndexError raised out
of the method by its own except handler (which reads active_fw_list[0] in
its log f-string at line 250) - it neither logs nor returns, refuting the
claim that every subsequent configuration method's try/except catches the
IndexError and returns. -/
theorem C10_counterexample :
    act_fw_route_config [] [] .ok200 .ok200 = ⟨0, .raisedIndexError⟩ ∧
    RouteCfgOutcome.raisedIndexError ≠ RouteCfgOutcome.caughtError ∧
    (get_active_fw [(exA, "k1"), (exB, "k2")] haAllPassive 0).active = [] :=
  ⟨rfl, by decide, by decide⟩

/-- Helper: api_keys_list has one entry per successful keygen request. -/
lemma successIdx_length_le :
    ∀ (ds : List Device) (net : Nat → KeygenResp) (a : Nat),
      (successIdx ds net a).length ≤ ds.length := by
  intro ds
  induction ds with
  | nil => intro net a; simp [successIdx]
  | cons d rest ih =>
    intro net a
    cases hr : net a with
    | ok200 k =>
      simp only [successIdx, hr, List.length_cons]
      exact Nat.succ_le_succ (ih net (a + 1))
    | raised =>
      simp only [successIdx, hr, List.length_cons]
      exact Nat.le_trans (ih net (a + 1)) (Nat.le_succ _)
    | httpErr c =>
      simp only [successIdx, hr, List.length_cons]
      exact Nat.le_trans (ih net (a + 1)) (Nat.le_succ _)

/-- Helper: api_keys_list and the success-index list have the same length. -/
lemma get_api_key_length :
    ∀ (ds : List Device) (net : Nat → KeygenResp) (a : Nat),
      (get_api_key ds net a).length = (successIdx ds net a).length := by
  intro ds
  induction ds with
  | nil => intro net a; simp [get_api_key, successIdx]
  | cons d rest ih =>
    intro net a
    cases hr : net a with
    | ok200 k => simp only [get_api_key, successIdx, hr, List.length_cons, ih net (a + 1)]
    | raised => simp only [get_api_key, successIdx, hr, ih net (a + 1)]
    | httpErr c => simp only [get_api_key, successIdx, hr, ih net (a + 1)]

/-- Helper: position i of api_keys_list holds the key of the request at the
original index recorded at position i of the success-index list. -/
lemma get_api_key_get? :
    ∀ (ds : List Device) (net : Nat → KeygenResp) (a i m : Nat),
      (successIdx ds net a).get? i = some m →
      (get_api_key ds net a).get? i = (net m).keyOf := by
  intro ds
  induction ds with
  | nil => intro net a i m hm; simp [successIdx] at hm
  | cons d rest ih =>
    intro net a i m hm
    cases hr : net a with
    | ok200 k =>
      rw [successIdx, hr] at hm
      rw [get_api_key, hr]
      cases i with
      | zero =>
        simp only [List.get?] at hm ⊢
        obtain rfl : a = m := by simpa using hm
        simp [hr, KeygenResp.keyOf]
      | succ j =>
        simp only [List.get?] at hm ⊢
        exact ih net (a + 1) j m hm
    | raised =>
      rw [successIdx, hr] at hm
      rw [get_api_key, hr]
      exact ih net (a + 1) i m hm
    | httpErr c =>
      rw [successIdx, hr] at hm
      rw [get_api_key, hr]
      exact ih net (a + 1) i m hm

/-- Helper: the original index recorded at position i is at least the start
index plus i - a key can only come from the same or a later device, never
from an earlier one. -/
lemma successIdx_lb :
    ∀ (ds : List Device) (net : Nat → KeygenResp) (a i m : Nat),
      (successIdx ds net a).get? i = some m → a + i ≤ m := by
  intro ds
  induction ds with
  | nil => intro net a i m hm; simp [successIdx] at hm
  | cons d rest ih =>
    intro net a i m hm
    cases hr : net a with
    | ok200 k =>
      rw [successIdx, hr] at hm
      cases i with
      | zero =>
        obtain rfl : a = m := by simpa using hm
        omega
      | succ j =>
        simp only [List.get?] at hm
        have := ih net (a + 1) j m hm
        omega
    | raised =>
      rw [successIdx, hr] at hm
      have := ih net (a + 1) i m hm
      omega
    | httpErr c =>
      rw [successIdx, hr] at hm
      have := ih net (a + 1) i m hm
      omega

/-- Helper: when every request in the prefix up to i succeeds, position i of
the success-index list is exactly the start index plus i (alignment holds). -/
lemma successIdx_of_prefix_ok :
    ∀ (ds : List Device) (net : Nat → KeygenResp) (a i : Nat),
      (∀ t, t ≤ i → (net (a + t)).isOk = true) → i < ds.length →
      (successIdx ds net a).get? i = some (a + i) := by
  intro ds
  induction ds with
  | nil => intro net a i _ hi; simp at hi
  | cons d rest ih =>
    intro net a i hok hi
    have h0 : (net a).isOk = true := by simpa using hok 0 (Nat.zero_le _)
    cases hr : net a with
    | raised => rw [hr] at h0; simp [KeygenResp.isOk] at h0
    | httpErr c => rw [hr] at h0; simp [KeygenResp.isOk] at h0
    | ok200 k =>
      rw [successIdx, hr]
      cases i with
      | zero => simp
      | succ j =>
        simp only [List.get?]
        have hok1 : ∀ t, t ≤ j → (net (a + 1 + t)).isOk = true := by
          intro t ht
          have := hok (t + 1) (by omega)
          have harith : a + (t + 1) = a + 1 + t := by omega
          rwa [harith] at this
        have := ih net (a + 1) j hok1 (by simpa using Nat.lt_of_succ_lt_succ hi)
        have harith : a + 1 + j = a + (j + 1) := by omega
        rwa [harith] at this

/-- Helper: conversely, alignment at position i forces every request in the
prefix up to i to have succeeded. -/
lemma prefix_ok_of_successIdx :
    ∀ (ds : List Device) (net : Nat → KeygenResp) (a i : Nat),
      (successIdx ds net a).get? i = some (a + i) →
      ∀ t, t ≤ i → (net (a + t)).isOk = true := by
  intro ds
  induction ds with
  | nil => intro net a i hm; simp [successIdx] at hm
  | cons d rest ih =>
    intro net a i hm
    cases hr : net a with
    | ok200 k =>
      rw [successIdx, hr] at hm
      cases i with
      | zero =>
        intro t ht
        obtain rfl : t = 0 := by omega
        simp [hr, KeygenResp.isOk]
      | succ j =>
        simp only [List.get?] at hm
        have harith : a + (j + 1) = a + 1 + j := by omega
        rw [harith] at hm
        have hrest := ih net (a + 1) j hm
        intro t ht
        cases t with
        | zero => simp [hr, KeygenResp.isOk]
        | succ s =>
          have := hrest s (by omega)
          have harith2 : a + 1 + s = a + (s + 1) := by omega
          rwa [harith2] at this
    | raised =>
      rw [successIdx, hr] at hm
      have := successIdx_lb rest net (a + 1) i _ hm
      omega
    | httpErr c =>
      rw [successIdx, hr] at hm
      have := successIdx_lb rest net (a + 1) i _ hm
      omega

/-- Helper: any failed request strictly shortens api_keys_list relative to
pa_credentials, so a later zip drops trailing devices. -/
lemma successIdx_length_lt :
    ∀ (ds : List Device) (net : Nat → KeygenResp) (a : Nat),
      (∃ j, j < ds.length ∧ (net (a + j)).isOk = false) →
      (successIdx ds net a).length < ds.length := by
  intro ds
  induction ds with
  | nil => intro net a h; obtain ⟨j, hj, _⟩ := h; simp at hj
  | cons d rest ih =>
    intro net a h
    obtain ⟨j, hj, hfail⟩ := h
    cases hr : net a with
    | ok200 k =>
      simp only [successIdx, hr, List.length_cons]
      have hj0 : j ≠ 0 := by
        intro hcon
        rw [hcon] at hfail
        simp [hr, KeygenResp.isOk] at hfail
      obtain ⟨s, rfl⟩ : ∃ s, j = s + 1 := ⟨j - 1, by omega⟩
      have harith : a + (s + 1) = a + 1 + s := by omega
      rw [harith] at hfail
      have := ih net (a + 1) ⟨s, by simp at hj; omega, hfail⟩
      omega
    | raised =>
      simp only [successIdx, hr, List.length_cons]
      have := successIdx_length_le rest net (a + 1)
      omega
    | httpErr c =>
      simp only [successIdx, hr, List.length_cons]
      have := successIdx_length_le rest net (a + 1)
      omega

/-- C9 (amended): after any keygen failure the positional alignment of
zip(pa_credentials, api_keys_list) breaks towards LATER devices, not earlier
ones: position i of api_keys_list holds the key generated for the device at
original index m with i ≤ m (so device i is paired with the key of the same
or a later device, and trailing devices are silently dropped - the zip is as
long as api_keys_list, which is strictly shorter than pa_credentials once any
request fails); alignment m = i holds exactly when all keygen requests for
devices 0..i succeeded. -/
theorem C9_alignment (devices : List Device) (net : Nat → KeygenResp) (i m : Nat)
    (hm : (successIdx devices net 0).get? i = some m) :
    (get_api_key devices net 0).get? i = (net m).keyOf ∧
    i ≤ m ∧
    (m = i ↔ ∀ t, t ≤ i → (net t).isOk = true) ∧
    (devices.zip (get_api_key devices net 0)).length = (successIdx devices net 0).length ∧
    (∀ j, j < devices.length → (net j).isOk = false →
      (get_api_key devices net 0).length < devices.length) := by
  refine ⟨get_api_key_get? devices net 0 i m hm, ?_, ?_, ?_, ?_⟩
  · have := successIdx_lb devices net 0 i m hm
    omega
  · constructor
    · intro hmi
      have hm0 : (successIdx devices net 0).get? i = some (0 + i) := by
        rw [hmi] at hm
        simpa using hm
      have := prefix_ok_of_successIdx devices net 0 i hm0
      intro t ht
      simpa using this t ht
    · intro hok
      have hi : i < (successIdx devices net 0).length := by
        rcases List.get?_eq_some.mp hm with ⟨h, _⟩
        exact h
      have hi2 : i < devices.length := lt_of_lt_of_le hi (successIdx_length_le devices net 0)
      have := successIdx_of_prefix_ok devices net 0 i (by intro t ht; simpa using hok t ht) hi2
      rw [this] at hm
      simp only [Option.some.injEq] at hm
      omega
  · rw [List.length_zip, get_api_key_length devices net 0]
    exact Nat.min_eq_right (successIdx_length_le devices net 0)
  · intro j hj hfail
    rw [get_api_key_length devices net 0]
    exact successIdx_length_lt devices net 0 ⟨j, hj, by simpa using hfail⟩

/-- Witness for C9_alignment: with the first keygen failing and the next two
succeeding, position 0 of api_keys_list is the key of the device at original
index 1 - the same-or-later bound 0 ≤ 1 - and the zip is 2 long for 3
devices. -/
theorem C9_alignment_witness :
    (get_api_key [exA, exB, exC] kgFailFirst 0).get? 0 = (kgFailFirst 1).keyOf ∧
    (0 : Nat) ≤ 1 ∧
    ([exA, exB, exC].zip (get_api_key [exA, exB, exC] kgFailFirst 0)).length =
      (successIdx [exA, exB, exC] kgFailFirst 0).length := by
  have h := C9_alignment [exA, exB, exC] kgFailFirst 0 1 (by decide)
  exact ⟨h.1, h.2.1, h.2.2.2.1⟩

/-- C9 counterexample: with the first keygen failing, device A (index 0) is
paired in the zip with the key generated for device B (original index 1) - a
LATER device, while the claim says the key of an earlier device - and device
C is dropped from the zip. -/
theorem C9_counterexample :
    get_api_key [exA, exB, exC] kgFailFirst 0 = ["kB", "kC"] ∧
    successIdx [exA, exB, exC] kgFailFirst 0 = [1, 2] ∧
    [exA, exB, exC].zip (get_api_key [exA, exB, exC] kgFailFirst 0) =
      [(exA, "kB"), (exB, "kC")] ∧
    (kgFailFirst 1).keyOf = some "kB" ∧
    0 < 1 := by
  refine ⟨by decide, by decide, by decide, by decide, by decide⟩

/-- Helper: inserting an already-present key leaves the key sequence of the
dict unchanged. -/
lemma dictInsert_keys_mem :
    ∀ (reg : Registry) (k : String) (v : RegEntry), k ∈ reg.map Prod.fst →
      (dictInsert k v reg).map Prod.fst = reg.map Prod.fst := by
  intro reg
  induction reg with
  | nil => intro k v hk; simp at hk
  | cons p rest ih =>
    intro k v hk
    obtain ⟨k₀, v₀⟩ := p
    by_cases he : k = k₀
    · simp [dictInsert, he]
    · simp only [List.map_cons] at hk
      rcases List.mem_cons.mp hk with hk1 | hk1
      · exact absurd hk1 he
      · simp [dictInsert, he, ih k v hk1]

/-- Helper: inserting a fresh key appends it at the end of the key
sequence. -/
lemma dictInsert_keys_not_mem :
    ∀ (reg : Registry) (k : String) (v : RegEntry), k ∉ reg.map Prod.fst →
      (dictInsert k v reg).map Prod.fst = reg.map Prod.fst ++ [k] := by
  intro reg
  induction reg with
  | nil => intro k v _; simp [dictInsert]
  | cons p rest ih =>
    intro k v hk
    obtain ⟨k₀, v₀⟩ := p
    simp only [List.map_cons, List.mem_cons] at hk
    push_neg at hk
    simp [dictInsert, hk.1, ih k v hk.2]

/-- Helper: dict assignment preserves key uniqueness. -/
lemma dictInsert_nodup (reg : Registry) (k : String) (v : RegEntry)
    (h : (reg.map Prod.fst).Nodup) : ((dictInsert k v reg).map Prod.fst).Nodup := by
  by_cases hk : k ∈ reg.map Prod.fst
  · rwa [dictInsert_keys_mem reg k v hk]
  · rw [dictInsert_keys_not_mem reg k v hk]
    refine List.nodup_append.mpr ⟨h, List.nodup_singleton k, ?_⟩
    intro a ha hb
    simp only [List.mem_singleton] at hb
    exact hk (hb ▸ ha)

/-- Helper: after d[k] = v, looking up k yields v. -/
lemma dictLookup_insert :
    ∀ (reg : Registry) (k : String) (v : RegEntry),
      dictLookup k (dictInsert k v reg) = some v := by
  intro reg
  induction reg with
  | nil => intro k v; simp [dictInsert, dictLookup]
  | cons p rest ih =>
    intro k v
    obtain ⟨k₀, v₀⟩ := p
    by_cases he : k = k₀
    · simp [dictInsert, he, dictLookup]
    · simp [dictInsert, he, dictLookup, ih k v]

/-- Helper: overwriting an existing key does not change the dict size. -/
lemma dictInsert_length_mem (reg : Registry) (k : String) (v : RegEntry)
    (hk : k ∈ reg.map Prod.fst) : (dictInsert k v reg).length = reg.length := by
  have := dictInsert_keys_mem reg k v hk
  have h1 : ((dictInsert k v reg).map Prod.fst).length = (reg.map Prod.fst).length := by
    rw [this]
  simpa using h1

/-- Helper: the commit-start phase keeps jobid_dict keys unique from any
starting dict with unique keys. -/
lemma startCommits_nodup (net : Nat → StartResp) :
    ∀ (pairs : List (Device × String)) (i : Nat) (reg : Registry),
      (reg.map Prod.fst).Nodup →
      ((startCommits net pairs i reg).map Prod.fst).Nodup := by
  intro pairs
  induction pairs with
  | nil => intro i reg h; simpa [startCommits] using h
  | cons p rest ih =>
    intro i reg h
    obtain ⟨d, key⟩ := p
    cases hr : net i with
    | job j =>
      simp only [startCommits, hr]
      exact ih (i + 1) _ (dictInsert_nodup reg _ _ h)
    | raised => simpa only [startCommits, hr] using ih (i + 1) reg h
    | httpErr c => simpa only [startCommits, hr] using ih (i + 1) reg h
    | noResult => simpa only [startCommits, hr] using ih (i + 1) reg h

/-- C5 (amended): jobid_dict never holds two entries with the same
host_jobid key - because it is a Python dict, whose assignment on an
existing key silently overwrites the stored job info in place (same key
sequence, same size, new value) rather than failing: no DuplicateJobError
exists anywhere in the code. -/
theorem C5_dict_overwrite (pairs : List (Device × String)) (net : Nat → StartResp)
    (reg : Registry) (k : String) (v : RegEntry) (hk : k ∈ reg.map Prod.fst) :
    ((startCommits net pairs 0 []).map Prod.fst).Nodup ∧
    (dictInsert k v reg).map Prod.fst = reg.map Prod.fst ∧
    (dictInsert k v reg).length = reg.length ∧
    dictLookup k (dictInsert k v reg) = some v :=
  ⟨startCommits_nodup net pairs 0 [] (by simp),
   dictInsert_keys_mem reg k v hk,
   dictInsert_length_mem reg k v hk,
   dictLookup_insert reg k v⟩

/-- Witness for C5_dict_overwrite: re-assigning the key h_5 replaces the
stored entry (now naming the second device) without growing the dict. -/
theorem C5_dict_overwrite_witness :
    ((startCommits startSame5 ([exDup1, exDup2].zip ["k1", "k2"]) 0 []).map
      Prod.fst).Nodup ∧
    (dictInsert "h_5" ⟨exDup2, "h", some "5"⟩
        [("h_5", ⟨exDup1, "h", some "5"⟩)]).map Prod.fst =
      [("h_5", (⟨exDup1, "h", some "5"⟩ : RegEntry))].map Prod.fst ∧
    (dictInsert "h_5" ⟨exDup2, "h", some "5"⟩
        [("h_5", ⟨exDup1, "h", some "5"⟩)]).length =
      [("h_5", (⟨exDup1, "h", some "5"⟩ : RegEntry))].length ∧
    dictLookup "h_5" (dictInsert "h_5" ⟨exDup2, "h", some "5"⟩
        [("h_5", ⟨exDup1, "h", some "5"⟩)]) =
      some ⟨exDup2, "h", some "5"⟩ :=
  C5_dict_overwrite ([exDup1, exDup2].zip ["k1", "k2"]) startSame5
    [("h_5", ⟨exDup1, "h", some "5"⟩)] "h_5" ⟨exDup2, "h", some "5"⟩ (by decide)

/-- C5 counterexample: two devices sharing host h are both assigned job id 5;
the second dict assignment under the key h_5 silently overwrites the first
entry (the stored device is the second one) and raises nothing - refuting
the claim that inserting an existing key fails with DuplicateJobError. -/
theorem C5_counterexample :
    startCommits startSame5 ([exDup1, exDup2].zip ["k1", "k2"]) 0 [] =
      [("h_5", ⟨exDup2, "h", some "5"⟩)] ∧
    ([exDup1, exDup2].zip ["k1", "k2"]).length = 2 := by
  exact ⟨by decide, by decide⟩

/-- Helper: countACT over a cons, following List.filter. -/
lemma countACT_cons (net : Nat → String → PollResp) (round : Nat)
    (p : String × RegEntry) (rest : List (String × RegEntry)) :
    countACT net round (p :: rest) =
      if isACT (net round p.1) then countACT net round rest + 1
      else countACT net round rest := by
  simp only [countACT, List.filter_cons]
  split <;> simp

/-- C4 (amended): within one polling round, every entry whose status query
returns ACT incurs its own time.sleep(15) inside the for loop: a round with
no raised exception completes with its sleep total increased by 15 times the
number of ACT entries - a per-entry sleep that grows with the registry, not
a single shared inter-round delay. -/
theorem C4_per_entry_sleep (net : Nat → String → PollResp) (round : Nat) :
    ∀ (entries : List (String × RegEntry)) (acc : RoundAcc),
      (∀ p, p ∈ entries → net round p.1 ≠ PollResp.raised) →
      ∃ out, processEntries net round entries acc = .ok out ∧
        out.slept = acc.slept + 15 * countACT net round entries := by
  intro entries
  induction entries with
  | nil => intro acc _; exact ⟨acc, rfl, by simp [countACT]⟩
  | cons p rest ih =>
    intro acc hnr
    obtain ⟨k, e⟩ := p
    have hk : net round k ≠ PollResp.raised := hnr (k, e) (List.mem_cons_self _ _)
    have hrest : ∀ q, q ∈ rest → net round q.1 ≠ PollResp.raised := by
      intro q hq
      exact hnr q (List.mem_cons_of_mem _ hq)
    rw [countACT_cons]
    cases hr : net round k with
    | raised => exact absurd hr hk
    | httpErr c =>
      obtain ⟨out, h1, h2⟩ := ih _ hrest
      refine ⟨out, ?_, ?_⟩
      · simp only [processEntries, hr]
        exact h1
      · simpa [hr, isACT] using h2
    | noJob =>
      obtain ⟨out, h1, h2⟩ := ih _ hrest
      refine ⟨out, ?_, ?_⟩
      · simp only [processEntries, hr]
        exact h1
      · simpa [hr, isACT] using h2
    | jobElem status result =>
      by_cases hACT : status = some "ACT"
      · obtain ⟨out, h1, h2⟩ := ih _ hrest
        refine ⟨out, ?_, ?_⟩
        · simp only [processEntries, hr, if_pos hACT]
          exact h1
        · have hact : isACT (PollResp.jobElem status result) = true := by
            simp [isACT, hACT]
          simp [hact] at h2 ⊢
          omega
      · by_cases hFIN : status = some "FIN"
        · by_cases hOK : result = "OK"
          · obtain ⟨out, h1, h2⟩ := ih _ hrest
            refine ⟨out, ?_, ?_⟩
            · simp only [processEntries, hr, if_neg hACT, if_pos hFIN, if_pos hOK]
              exact h1
            · have : isACT (PollResp.jobElem status result) = false := by
                simp [isACT, hACT]
              simpa [hr, this] using h2
          · obtain ⟨out, h1, h2⟩ := ih _ hrest
            refine ⟨out, ?_, ?_⟩
            · simp only [processEntries, hr, if_neg hACT, if_pos hFIN, if_neg hOK]
              exact h1
            · have : isACT (PollResp.jobElem status result) = false := by
                simp [isACT, hACT]
              simpa [hr, this] using h2
        · obtain ⟨out, h1, h2⟩ := ih _ hrest
          refine ⟨out, ?_, ?_⟩
          · simp only [processEntries, hr, if_neg hACT, if_neg hFIN]
            exact h1
          · have : isACT (PollResp.jobElem status result) = false := by
              simp [isACT, hACT]
            simpa [hr, this] using h2

/-- Witness for C4_per_entry_sleep: a round over two live entries that both
report ACT. -/
theorem C4_per_entry_sleep_witness :
    ∃ out,
      processEntries pollAllAct 0
          [("h1_1", ⟨ex1, "h1", some "1"⟩), ("h2_2", ⟨ex2, "h2", some "2"⟩)]
          ⟨[], 0, [], []⟩ = .ok out ∧
      out.slept = 0 + 15 * countACT pollAllAct 0
          [("h1_1", ⟨ex1, "h1", some "1"⟩), ("h2_2", ⟨ex2, "h2", some "2"⟩)] :=
  C4_per_entry_sleep pollAllAct 0
    [("h1_1", ⟨ex1, "h1", some "1"⟩), ("h2_2", ⟨ex2, "h2", some "2"⟩)]
    ⟨[], 0, [], []⟩ (by intro p _; simp [pollAllAct])

/-- C4 counterexample: one polling round over two Running entries sleeps 30
time units, while the same round over one Running entry sleeps 15 - the
delay is incurred per entry inside the round and scales with the number of
live registry entries, refuting the single shared inter-round delay. -/
theorem C4_counterexample :
    sleptOf (commit_changes [ex1, ex2] ["k1", "k2"] startJobs12 pollActRound0 1) = 30 ∧
    sleptOf (commit_changes [ex1] ["k1"] startJobs12 pollActRound0 1) = 15 ∧
    (30 : Nat) ≠ 15 :=
  ⟨by decide, by decide, by decide⟩

/-- Helper: with an oracle that always answers ACT, one round leaves
ready_devices and completed_jobs untouched, polls every key, and sleeps 15 per
entry. -/
lemma processEntries_allACT (net : Nat → String → PollResp)
    (hACT : ∀ r k, net r k = .jobElem (some "ACT") "") (r : Nat) :
    ∀ (entries : List (String × RegEntry)) (acc : RoundAcc),
      processEntries net r entries acc =
        .ok ⟨acc.ready, acc.slept + 15 * entries.length,
             acc.polled ++ entries.map Prod.fst, acc.completed⟩ := by
  intro entries
  induction entries with
  | nil => intro acc; simp [processEntries]
  | cons p rest ih =>
    intro acc
    obtain ⟨k, e⟩ := p
    simp only [processEntries, hACT r k, if_pos rfl]
    rw [ih]
    refine congrArg Except.ok ?_
    congr 1
    · simp only [List.length_cons]
      ring
    · simp [List.append_assoc]

/-- Helper: removing no keys leaves jobid_dict unchanged. -/
lemma removeKeys_nil (reg : Registry) : removeKeys [] reg = reg := by
  induction reg with
  | nil => rfl
  | cons p rest ih => simp_all [removeKeys, List.filter_cons, List.contains]

/-- Helper: with an always-ACT oracle and a non-empty registry, the while loop
is still running after any number of rounds, with the registry unchanged and
the sleep total growing by 15 per entry per round. -/
lemma monitorLoop_stuck (credCount : Nat) (net : Nat → String → PollResp)
    (hACT : ∀ r k, net r k = .jobElem (some "ACT") "") (hcc : 0 < credCount) :
    ∀ (fuel : Nat) (st : MState), st.registry ≠ [] → st.ready = [] →
      monitorLoop credCount net fuel st =
        .fuelOut ⟨st.registry, [], st.slept + 15 * st.registry.length * fuel,
                  st.round + fuel⟩ := by
  intro fuel
  induction fuel with
  | zero =>
    intro st hreg hready
    obtain ⟨reg, rdy, slp, rnd⟩ := st
    simp only at hready
    subst hready
    simp [monitorLoop, hreg]
  | succ n ih =>
    intro st hreg hready
    obtain ⟨reg, rdy, slp, rnd⟩ := st
    simp only at hready hreg
    subst hready
    simp only [monitorLoop, if_neg hreg]
    rw [processEntries_allACT net hACT rnd reg ⟨[], slp, [], []⟩]
    simp only [removeKeys_nil]
    rw [if_neg (by simpa using Nat.ne_of_lt hcc)]
    rw [ih ⟨reg, [], slp + 15 * reg.length, rnd + 1⟩ hreg rfl]
    refine congrArg MonitorResult.fuelOut ?_
    congr 1 <;> ring

/-- C2 (amended): the monitoring loop has no time budget: it stops only when
jobid_dict empties, when every credentialed device is recorded ready, or when
an exception aborts it - so a job that keeps reporting ACT is re-polled on
every round indefinitely, with the elapsed sleep time growing without bound
(15 units per live entry per round) and the registry never shrinking. -/
theorem C2_no_time_budget (credCount : Nat) (net : Nat → String → PollResp)
    (fuel : Nat) (st : MState)
    (hACT : ∀ r k, net r k = .jobElem (some "ACT") "")
    (hcc : 0 < credCount) (hreg : st.registry ≠ []) (hready : st.ready = []) :
    monitorLoop credCount net fuel st =
      .fuelOut ⟨st.registry, [], st.slept + 15 * st.registry.length * fuel,
                st.round + fuel⟩ :=
  monitorLoop_stuck credCount net hACT hcc fuel st hreg hready

/-- Witness for C2_no_time_budget: a single stuck job polled for two rounds
has slept 30 units and is still live. -/
theorem C2_no_time_budget_witness :
    monitorLoop 1 pollAllAct 2 ⟨[("h1_7", ⟨ex1, "h1", some "7"⟩)], [], 0, 0⟩ =
      .fuelOut ⟨[("h1_7", ⟨ex1, "h1", some "7"⟩)], [], 30, 2⟩ := by
  have h := C2_no_time_budget 1 pollAllAct 2
    ⟨[("h1_7", ⟨ex1, "h1", some "7"⟩)], [], 0, 0⟩
    (fun _ _ => rfl) (by decide) (by decide) rfl
  simpa using h

/-- C2 counterexample: for a device whose commit job reports ACT forever,
PaloAltoFirewall_HA.commit_changes never reaches any of the ways its while
loop can stop, however many rounds elapse - the loop polls infinitely, and no
time budget exists to cut it off, refuting the claim that polling is bounded
by a mandatory orchestration time budget. -/
theorem C2_counterexample :
    ¬ ∃ fuel : Nat,
      terminated (commit_changes [ex1] ["k"] startJob7 pollAllAct fuel) = true := by
  rintro ⟨fuel, hterm⟩
  have hrun : commit_changes [ex1] ["k"] startJob7 pollAllAct fuel =
      .monitored (monitorLoop 1 pollAllAct fuel
        ⟨[("h1_7", ⟨ex1, "h1", some "7"⟩)], [], 0, 0⟩) := rfl
  rw [hrun, monitorLoop_stuck 1 pollAllAct (fun _ _ => rfl) (by decide) fuel
    ⟨[("h1_7", ⟨ex1, "h1", some "7"⟩)], [], 0, 0⟩ (by decide) rfl] at hterm
  simp [terminated] at hterm

/-- Helper: processEntries over an appended list runs the first part and, if
no exception was raised there, continues with the second from the state
reached. -/
lemma processEntries_append (net : Nat → String → PollResp) (r : Nat) :
    ∀ (l₁ l₂ : List (String × RegEntry)) (acc : RoundAcc),
      processEntries net r (l₁ ++ l₂) acc =
        match processEntries net r l₁ acc with
        | .ok a => processEntries net r l₂ a
        | .error a => .error a := by
  intro l₁
  induction l₁ with
  | nil => intro l₂ acc; simp [processEntries]
  | cons p rest ih =>
    intro l₂ acc
    obtain ⟨k, e⟩ := p
    cases hr : net r k with
    | raised => simp only [List.cons_append, processEntries, hr]
    | httpErr c =>
      simp only [List.cons_append, processEntries, hr]
      exact ih l₂ _
    | noJob =>
      simp only [List.cons_append, processEntries, hr]
      exact ih l₂ _
    | jobElem status result =>
      simp only [List.cons_append, processEntries, hr]
      split
      · exact ih l₂ _
      · split
        · split
          · exact ih l₂ _
          · exact ih l₂ _
        · exact ih l₂ _

/-- C3 (amended): a transport or parse exception while polling one registry
entry aborts the entire monitoring loop at once: entries waiting later in the
same round are never polled (the outcome does not depend on them), no
deletion happens (jobid_dict is left exactly as it was), ready_devices keeps
only what earlier entries of that round had contributed, and the failure is
recorded nowhere - in particular it is never classified as a remote commit
failure. -/
theorem C3_poll_exception_aborts (credCount : Nat) (net : Nat → String → PollResp)
    (fuel : Nat) (st : MState) (acc₁ : RoundAcc)
    (pre rest : List (String × RegEntry)) (k : String) (e : RegEntry)
    (hreg : st.registry = pre ++ (k, e) :: rest)
    (hpre : processEntries net st.round pre ⟨st.ready, st.slept, [], []⟩ = .ok acc₁)
    (hk : net st.round k = .raised) :
    monitorLoop credCount net (fuel + 1) st =
      .aborted { st with ready := acc₁.ready, slept := acc₁.slept }
        (acc₁.polled ++ [k]) := by
  have hne : st.registry ≠ [] := by
    rw [hreg]
    intro hcon
    have hlen := congrArg List.length hcon
    simp [List.length_append] at hlen
  have hproc : processEntries net st.round st.registry ⟨st.ready, st.slept, [], []⟩ =
      .error { acc₁ with polled := acc₁.polled ++ [k] } := by
    rw [hreg, processEntries_append net st.round pre ((k, e) :: rest) _, hpre]
    simp only [processEntries, hk]
  simp only [monitorLoop, if_neg hne, hproc]

/-- Witness for C3_poll_exception_aborts: the first of two live entries
raises in round 0; the loop aborts with only that key polled and both entries
still in the registry. -/
theorem C3_poll_exception_aborts_witness :
    monitorLoop 2 pollRaiseFirst 1
        ⟨[("h1_1", ⟨ex1, "h1", some "1"⟩), ("h2_2", ⟨ex2, "h2", some "2"⟩)],
         [], 0, 0⟩ =
      .aborted ⟨[("h1_1", ⟨ex1, "h1", some "1"⟩), ("h2_2", ⟨ex2, "h2", some "2"⟩)],
                [], 0, 0⟩ ["h1_1"] := by
  have h := C3_poll_exception_aborts 2 pollRaiseFirst 0
    ⟨[("h1_1", ⟨ex1, "h1", some "1"⟩), ("h2_2", ⟨ex2, "h2", some "2"⟩)], [], 0, 0⟩
    ⟨[], 0, [], []⟩ [] [("h2_2", ⟨ex2, "h2", some "2"⟩)] "h1_1" ⟨ex1, "h1", some "1"⟩
    rfl rfl (by decide)
  simpa using h

/-- C3 counterexample: with two registered jobs, the poll of the first raises
in round 0 while the second would have answered FIN OK; the whole run aborts
with only the first key polled, ready_devices empty, and both entries still
registered - the failing entry is not left live for a later round (there is
no later round) and the healthy device's entry is never processed, refuting
the claim that a transport failure is contained to its own entry. -/
theorem C3_counterexample :
    commit_changes [ex1, ex2] ["k1", "k2"] startJobs12 pollRaiseFirst 3 =
      .monitored (.aborted
        ⟨[("h1_1", ⟨ex1, "h1", some "1"⟩), ("h2_2", ⟨ex2, "h2", some "2"⟩)],
         [], 0, 0⟩ ["h1_1"]) ∧
    pollRaiseFirst 0 "h2_2" = .jobElem (some "FIN") "OK" ∧
    readyOf (commit_changes [ex1, ex2] ["k1", "k2"] startJobs12 pollRaiseFirst 3) = [] :=
  ⟨by decide, by decide, by decide⟩

/-- Helper: membership after a ready_devices assignment. -/
lemma readyInsert_mem {h x : String} {l : List String} :
    h ∈ readyInsert x l → h = x ∨ h ∈ l := by
  unfold readyInsert
  split
  · exact Or.inr
  · intro hm
    rcases List.mem_append.mp hm with hm | hm
    · exact Or.inr hm
    · exact Or.inl (by simpa using hm)

/-- Helper: any host present in ready_devices after a round was either there
before the round or belongs to an entry of that round whose poll answered FIN
with result OK. -/
lemma processEntries_ready_sound (net : Nat → String → PollResp) (r : Nat) :
    ∀ (entries : List (String × RegEntry)) (acc : RoundAcc) (h : String),
      h ∈ (raccOf (processEntries net r entries acc)).ready →
      h ∈ acc.ready ∨ ∃ k e, (k, e) ∈ entries ∧ e.host = h ∧
        net r k = PollResp.jobElem (some "FIN") "OK" := by
  intro entries
  induction entries with
  | nil => intro acc h hm; exact Or.inl (by simpa [processEntries, raccOf] using hm)
  | cons p rest ih =>
    intro acc h hm
    obtain ⟨k, e⟩ := p
    cases hr : net r k with
    | raised =>
      simp only [processEntries, hr] at hm
      exact Or.inl (by simpa [raccOf] using hm)
    | httpErr c =>
      simp only [processEntries, hr] at hm
      rcases ih _ h hm with hl | ⟨k₁, e₁, hmem, hh, hp⟩
      · exact Or.inl hl
      · exact Or.inr ⟨k₁, e₁, List.mem_cons_of_mem _ hmem, hh, hp⟩
    | noJob =>
      simp only [processEntries, hr] at hm
      rcases ih _ h hm with hl | ⟨k₁, e₁, hmem, hh, hp⟩
      · exact Or.inl hl
      · exact Or.inr ⟨k₁, e₁, List.mem_cons_of_mem _ hmem, hh, hp⟩
    | jobElem status result =>
      simp only [processEntries, hr] at hm
      by_cases hACT : status = some "ACT"
      · rw [if_pos hACT] at hm
        rcases ih _ h hm with hl | ⟨k₁, e₁, hmem, hh, hp⟩
        · exact Or.inl hl
        · exact Or.inr ⟨k₁, e₁, List.mem_cons_of_mem _ hmem, hh, hp⟩
      · rw [if_neg hACT] at hm
        by_cases hFIN : status = some "FIN"
        · rw [if_pos hFIN] at hm
          by_cases hOK : result = "OK"
          · rw [if_pos hOK] at hm
            rcases ih _ h hm with hl | ⟨k₁, e₁, hmem, hh, hp⟩
            · rcases readyInsert_mem hl with hh | hl
              · refine Or.inr ⟨k, e, List.mem_cons_self _ _, hh.symm, ?_⟩
                rw [hr, hFIN, hOK]
              · exact Or.inl hl
            · exact Or.inr ⟨k₁, e₁, List.mem_cons_of_mem _ hmem, hh, hp⟩
          · rw [if_neg hOK] at hm
            rcases ih _ h hm with hl | ⟨k₁, e₁, hmem, hh, hp⟩
            · exact Or.inl hl
            · exact Or.inr ⟨k₁, e₁, List.mem_cons_of_mem _ hmem, hh, hp⟩
        · rw [if_neg hFIN] at hm
          rcases ih _ h hm with hl | ⟨k₁, e₁, hmem, hh, hp⟩
          · exact Or.inl hl
          · exact Or.inr ⟨k₁, e₁, List.mem_cons_of_mem _ hmem, hh, hp⟩

/-- Helper: deleting completed keys only removes entries. -/
lemma removeKeys_subset {completed : List String} {reg : Registry}
    {p : String × RegEntry} (h : p ∈ removeKeys completed reg) : p ∈ reg :=
  (List.mem_filter.mp h).1

/-- Helper: any host present in ready_devices when the monitoring loop stops
was already recorded when the loop started, or belongs to a registry entry
some round of which answered FIN with result OK. -/
lemma monitor_ready_sound (credCount : Nat) (net : Nat → String → PollResp) :
    ∀ (fuel : Nat) (st : MState) (h : String),
      h ∈ (mstateOf (monitorLoop credCount net fuel st)).ready →
      h ∈ st.ready ∨ ∃ k e r, (k, e) ∈ st.registry ∧ e.host = h ∧
        net r k = PollResp.jobElem (some "FIN") "OK" := by
  intro fuel
  induction fuel with
  | zero =>
    intro st h hm
    rw [monitorLoop] at hm
    split at hm <;> exact Or.inl (by simpa [mstateOf] using hm)
  | succ n ih =>
    intro st h hm
    rw [monitorLoop] at hm
    split at hm
    · exact Or.inl (by simpa [mstateOf] using hm)
    · cases hp : processEntries net st.round st.registry ⟨st.ready, st.slept, [], []⟩ with
      | error acc =>
        rw [hp] at hm
        simp only [mstateOf] at hm
        have := processEntries_ready_sound net st.round st.registry
          ⟨st.ready, st.slept, [], []⟩ h (by rw [hp]; simpa [raccOf] using hm)
        rcases this with hl | ⟨k, e, hmem, hh, hpoll⟩
        · exact Or.inl hl
        · exact Or.inr ⟨k, e, st.round, hmem, hh, hpoll⟩
      | ok acc =>
        rw [hp] at hm
        simp only at hm
        have hacc : h ∈ acc.ready → h ∈ st.ready ∨ ∃ k e r, (k, e) ∈ st.registry ∧
            e.host = h ∧ net r k = PollResp.jobElem (some "FIN") "OK" := by
          intro hin
          have := processEntries_ready_sound net st.round st.registry
            ⟨st.ready, st.slept, [], []⟩ h (by rw [hp]; simpa [raccOf] using hin)
          rcases this with hl | ⟨k, e, hmem, hh, hpoll⟩
          · exact Or.inl hl
          · exact Or.inr ⟨k, e, st.round, hmem, hh, hpoll⟩
        split at hm
        · exact hacc (by simpa [mstateOf] using hm)
        · rcases ih ⟨removeKeys acc.completed st.registry, acc.ready, acc.slept,
              st.round + 1⟩ h hm with hl | ⟨k, e, r, hmem, hh, hpoll⟩
          · exact hacc hl
          · exact Or.inr ⟨k, e, r, removeKeys_subset hmem, hh, hpoll⟩

/-- Helper: readyOf of a monitored run is the ready set of the final loop
state. -/
lemma readyOf_monitored (m : MonitorResult) :
    readyOf (.monitored m) = (mstateOf m).ready := by
  cases m <;> rfl

/-- C1 (amended): PaloAltoFirewall_HA.commit_changes returns no verdict map
at all (the method returns None); the only per-device record it builds,
ready_devices, is sound for success only - every host it ever contains comes
from a started registry entry one of whose polls answered FIN with result
OK.  Devices whose commit fails, errors, or never finishes are simply absent,
so the record is partial or empty rather than a total verdict map. -/
theorem C1_ready_sound (creds : List Device) (keys : List String)
    (startNet : Nat → StartResp) (pollNet : Nat → String → PollResp)
    (fuel : Nat) (h : String)
    (hmem : h ∈ readyOf (commit_changes creds keys startNet pollNet fuel)) :
    ∃ k e r, (k, e) ∈ startCommits startNet (creds.zip keys) 0 [] ∧ e.host = h ∧
      pollNet r k = PollResp.jobElem (some "FIN") "OK" := by
  rw [commit_changes] at hmem
  split at hmem
  · simp [readyOf] at hmem
  · rw [readyOf_monitored] at hmem
    rcases monitor_ready_sound creds.length pollNet fuel
        ⟨startCommits startNet (creds.zip keys) 0 [], [], 0, 0⟩ h hmem with
      hl | ⟨k, e, r, hmemreg, hh, hpoll⟩
    · simp at hl
    · exact ⟨k, e, r, hmemreg, hh, hpoll⟩

/-- Witness for C1_ready_sound: a run whose single job finishes OK records
host h1, and the record indeed traces back to the entry h1_7 polled FIN
OK. -/
theorem C1_ready_sound_witness :
    ∃ k e r, (k, e) ∈ startCommits startJob7 ([ex1].zip ["k"]) 0 [] ∧
      e.host = "h1" ∧ pollAllFinOk r k = PollResp.jobElem (some "FIN") "OK" :=
  C1_ready_sound [ex1] ["k"] startJob7 pollAllFinOk 2 "h1" (by decide)

/-- C1 counterexample: the single device's commit job finishes with result
FAIL; the run ends with ready_devices empty - zero per-device verdicts for a
one-device set, and no other verdict artifact exists since the method returns
None - refuting the claim of a complete per-device verdict map. -/
theorem C1_counterexample :
    readyOf (commit_changes [ex1] ["k"] startJob7 pollFinFail 5) = [] ∧
    [ex1].length = 1 ∧
    pollFinFail 0 "h1_7" = .jobElem (some "FIN") "FAIL" :=
  ⟨by decide, by decide, by decide⟩

end PA
